import Mathlib

/-!
Verification of the Methods-Bible repository's batch-completion engine and
LaTeX region tooling.

Python strings are modelled as `List Char`; Python dicts used as string-keyed
maps are modelled as functions into `Option`.  JSON records from the batch
results files are modelled by structures carrying exactly the fields the
source reads; a field whose Python value is falsy (`None`, `""`, `{}`) where
the source only tests truthiness is modelled as `none`.
-/

namespace MethodsBook

abbrev Chars := List Char

/-- Python whitespace for `str.strip` (ASCII, the characters relevant here);
the same set serves for the `\s` class in `re.match(r"l\.(\d+)\s", ...)`. -/
def isPySpace (c : Char) : Bool :=
  c = ' ' || c = '\t' || c = '\n' || c = '\r' || c = '\x0b' || c = '\x0c'

/-- Leading-whitespace removal (`lstrip`). -/
def stripLeft (l : Chars) : Chars := l.dropWhile isPySpace

/-- Trailing-whitespace removal (`rstrip`). -/
def stripRight (l : Chars) : Chars := (l.reverse.dropWhile isPySpace).reverse

/-- Python `str.strip()`. -/
def pyStrip (l : Chars) : Chars := stripRight (stripLeft l)

/-- First index at which `pat` occurs in the list (Python `str.index` /
the `in` operator's search). -/
def findSub (pat : Chars) : Chars → Option Nat
  | [] => if pat.isPrefixOf ([] : Chars) then some 0 else none
  | c :: rest =>
    if pat.isPrefixOf (c :: rest) then some 0 else (findSub pat rest).map (· + 1)

/-- Python `pat in s` (substring containment). -/
def containsSub (pat s : Chars) : Bool := (findSub pat s).isSome

/-- `extract_block` from `init_methods_book.py`: the substring of `full_text`
between `start_marker` and `end_marker`, stripped; `""` when either index
lookup raises `ValueError`. -/
def extract_block (full_text start_marker end_marker : Chars) : Chars :=
  match findSub start_marker full_text with
  | none => []
  | some i0 =>
    let i := i0 + start_marker.length
    match findSub end_marker (full_text.drop i) with
    | none => []
    | some j => pyStrip ((full_text.drop i).take j)

def mInqStart : Chars := "%%% INQUIRY START %%%".data
def mInqEnd : Chars := "%%% INQUIRY END %%%".data
def mSolStart : Chars := "%%% SOLUTION START %%%".data
def mSolEnd : Chars := "%%% SOLUTION END %%%".data

/-- The four-marker completion test of `parse_round_results`. -/
def hasAllMarkers (s : Chars) : Bool :=
  containsSub mInqStart s && containsSub mInqEnd s &&
  containsSub mSolStart s && containsSub mSolEnd s

/-! ### Batch result records

The JSONL result records, restricted to the fields the source walks:
`custom_id`, `response.status_code`, `response.body.status`,
`response.body.incomplete_details`, `response.body.output[*].content[*]`
(with `type` and `text`), and `error`. -/

/-- The `"text"` field of a content item: a plain string, a dict with
optional `value` / `content` keys, or anything else (ignored). -/
inductive TextField where
  | str (s : Chars)
  | dict (value : Option Chars) (content : Option Chars)
  | other
  deriving DecidableEq, Repr

structure ContentItem where
  type : Chars
  text : TextField
  deriving DecidableEq, Repr

structure OutputMsg where
  content : List ContentItem
  deriving DecidableEq, Repr

/-- A Responses-API `body` object.  `incomplete_details` is the provider's
truncation payload, keyed by its `reason` string; Python-falsy values
(`None`, `{}`) are modelled as `none`. -/
structure Body where
  status : Option Chars
  incomplete_details : Option Chars
  output : List OutputMsg
  deriving DecidableEq, Repr

def emptyBody : Body := ⟨none, none, []⟩

/-- The `response` envelope. `status_code := none` models a record whose
response carries no `status_code` key (Python default `0`). -/
structure ResponseEnv where
  status_code : Option Int
  body : Option Body
  deriving DecidableEq, Repr

/-- One parsed JSONL result line.  `custom_id = none` models a missing key;
`response = none` models an absent (or Python-falsy) response payload. -/
structure ResultRecord where
  custom_id : Option Chars
  response : Option ResponseEnv
  error : Option Chars
  deriving DecidableEq, Repr

/-- Python `x or y` for an optional string whose empty value is falsy. -/
def truthyOr (a : Option Chars) (d : Chars) : Chars :=
  match a with
  | some s => if s.isEmpty then d else s
  | none => d

/-- The value drawn from a content item's `text` field:
`text_field.get("value") or text_field.get("content") or ""` for dicts,
the string itself for strings, `""` otherwise. -/
def itemText : TextField → Chars
  | .str s => s
  | .dict v c => truthyOr v (truthyOr c [])
  | .other => []

/-- Chunks contributed by one output message: `output_text` items with a
truthy value. -/
def msgChunks (m : OutputMsg) : List Chars :=
  m.content.filterMap fun it =>
    if it.type = "output_text".data then
      let v := itemText it.text
      if v.isEmpty then none else some v
    else none

/-- `extract_output_text_from_response_obj`: concatenate all `output_text`
chunks with `"\n"` and strip. -/
def extract_output_text_from_response_obj (b : Body) : Chars :=
  pyStrip (List.intercalate ['\n'] (b.output.flatMap msgChunks))

/-! ### Per-example state -/

/-- The `incomplete_reason` dict: either the literal
`{"reason": "no_response", "error": err}`, the provider's
`incomplete_details` payload, or the literal `{"reason": "markers_missing"}`. -/
inductive IncompleteReason where
  | noResponse (err : Option Chars)
  | details (d : Chars)
  | markersMissing
  deriving DecidableEq, Repr

/-- The `reason` entry of an `incomplete_reason` dict. -/
def reasonField : IncompleteReason → Chars
  | .noResponse _ => "no_response".data
  | .details d => d
  | .markersMissing => "markers_missing".data

/-- `incomplete_details or {"reason": "markers_missing"}`. -/
def detailsOr : Option Chars → IncompleteReason
  | some d => .details d
  | none => .markersMissing

structure ExampleState where
  completed : Bool
  incomplete_reason : Option IncompleteReason
  status_code : Option Int
  deriving DecidableEq, Repr

/-- The two per-run dicts threaded through `parse_round_results`, plus the
`incomplete_ids` list it builds. -/
structure ParseState where
  combined : Chars → Option Chars
  states : Chars → Option ExampleState
  incomplete : List Chars

/-- Point update of a string-keyed map (Python `d[k] = v`). -/
def upd {α : Type} (m : Chars → Option α) (k : Chars) (v : α) : Chars → Option α :=
  fun k' => if k' = k then some v else m k'

/-- `combined = (prev + "\n" + seg  if prev else seg).strip()`. -/
def combineSeg (prev seg : Chars) : Chars :=
  if prev ≠ [] then pyStrip (prev ++ '\n' :: seg) else pyStrip seg

/-- The body of `parse_round_results`' per-line loop, after `json.loads`:
skip records without a truthy `custom_id`; a record without a response
payload is marked incomplete with reason `no_response`; otherwise the
extracted text is appended to the example's combined text and the four-marker
test decides completion. -/
def processRecord (st : ParseState) (r : ResultRecord) : ParseState :=
  match r.custom_id with
  | none => st
  | some cid =>
    if cid = [] then st
    else
      match r.response with
      | none =>
        { combined := st.combined
          states := upd st.states cid ⟨false, some (IncompleteReason.noResponse r.error), none⟩
          incomplete := st.incomplete ++ [cid] }
      | some resp =>
        let status_code := resp.status_code.getD 0
        let body := resp.body.getD emptyBody
        let seg := extract_output_text_from_response_obj body
        let c := combineSeg ((st.combined cid).getD []) seg
        if hasAllMarkers c then
          { combined := upd st.combined cid c
            states := upd st.states cid ⟨true, none, some status_code⟩
            incomplete := st.incomplete }
        else
          { combined := upd st.combined cid c
            states := upd st.states cid ⟨false, some (detailsOr body.incomplete_details), some status_code⟩
            incomplete := st.incomplete ++ [cid] }

/-- `parse_round_results`: fold the per-record step over the round's result
records (blank lines already dropped), starting from the two accumulated
maps; the resulting `incomplete` component is the returned list of ids that
are still incomplete after this round. -/
def parse_round_results (records : List ResultRecord)
    (combined_text_by_id : Chars → Option Chars)
    (example_state_by_id : Chars → Option ExampleState) : ParseState :=
  records.foldl processRecord ⟨combined_text_by_id, example_state_by_id, []⟩

/-! ### The multi-round batch pipeline (`run_example_batch`)

`spec_by_custom_id` (built by the source from `THEME_SPECS` and the cached
section plans) is abstracted as an input association list in insertion
order.  Request building, file upload and polling are pure effects whose
only influence on the returned value is which of three outcomes a round
reaches; they are abstracted as a per-round oracle. -/

/-- Metadata stored in `spec_by_custom_id` for one example. -/
structure ExMeta where
  chapter_title : Chars
  section_title : Chars
  ex_index : Nat
  ex_title : Chars
  ex_summary : Chars
  deriving DecidableEq, Repr

/-- What one round of the batch loop yields:
* `results recs` — a results JSONL was obtained (pre-existing file, or the
  job completed and was downloaded) and parses into `recs`;
* `fatal` — the job status became `failed`/`cancelled`/`expired`, or a
  completed job had no `output_file_id` (both `return {}` in the source);
* `noClient` — no client and no existing results file (`break`). -/
inductive RoundOutcome where
  | results (records : List ResultRecord)
  | fatal
  | noClient
  deriving DecidableEq, Repr

/-- The final `{title, inquiry, solution}` dict per example. -/
structure ExampleOutput where
  title : Chars
  inquiry : Chars
  solution : Chars
  deriving DecidableEq, Repr

/-- Initial accumulated state (`combined_text_by_id = {}`,
`example_state_by_id = {}`). -/
def initPS : ParseState := ⟨fun _ => none, fun _ => none, []⟩

/-- The `for round_idx in range(1, max_rounds + 1)` loop.  Returns `none`
when a fatal outcome makes the source `return {}`; otherwise the remaining
incomplete ids and the accumulated state when the loop exits. -/
def runRounds (outcomes : Nat → RoundOutcome) :
    Nat → Nat → List Chars → ParseState → Option (List Chars × ParseState)
  | _, 0, remaining, st => some (remaining, st)
  | round_idx, fuel + 1, remaining, st =>
    if remaining.isEmpty then some (remaining, st)
    else
      match outcomes round_idx with
      | .fatal => none
      | .noClient => some (remaining, st)
      | .results recs =>
        let st' := parse_round_results recs st.combined st.states
        if st'.incomplete.isEmpty then some (st'.incomplete, st')
        else runRounds outcomes (round_idx + 1) fuel st'.incomplete st'

/-- The round loop started as in the source: round 1, all custom ids
pending, empty accumulated state. -/
def loopResult (specs : List (Chars × ExMeta)) (outcomes : Nat → RoundOutcome)
    (max_rounds : Nat) : Option (List Chars × ParseState) :=
  runRounds outcomes 1 max_rounds (specs.map Prod.fst) initPS

/-- The final `example_outputs` construction: for every example with a
non-empty combined text, extract the inquiry and solution blocks, the
solution falling back to the whole combined text when the extracted block
is empty. -/
def finalize (specs : List (Chars × ExMeta)) (st : ParseState) :
    List ((Chars × Chars × Nat) × ExampleOutput) :=
  specs.filterMap fun p =>
    let combined := pyStrip ((st.combined p.1).getD [])
    if combined = [] then none
    else
      let inquiry_block := extract_block combined mInqStart mInqEnd
      let solution_block := extract_block combined mSolStart mSolEnd
      some ((p.2.chapter_title, p.2.section_title, p.2.ex_index),
        ⟨p.2.ex_title, inquiry_block,
          if solution_block = [] then combined else solution_block⟩)

/-- `run_example_batch`: empty plans short-circuit to `{}`; a fatal round
returns `{}`; otherwise the finalized outputs. -/
def run_example_batch (specs : List (Chars × ExMeta))
    (outcomes : Nat → RoundOutcome) (max_rounds : Nat) :
    List ((Chars × Chars × Nat) × ExampleOutput) :=
  if specs.isEmpty then []
  else
    match loopResult specs outcomes max_rounds with
    | none => []
    | some (_, st) => finalize specs st

/-- Observer: the final combined text of example `cid` after the round loop
(the value `combined_text_by_id.get(custom_id, "").strip()` read during
finalization); `[]` when the loop aborted fatally. -/
def finalCombined (specs : List (Chars × ExMeta)) (outcomes : Nat → RoundOutcome)
    (max_rounds : Nat) (cid : Chars) : Chars :=
  match loopResult specs outcomes max_rounds with
  | some rs => pyStrip ((rs.2.combined cid).getD [])
  | none => []

/-! ### Region patcher (`latex_fix_and_patch.py`)

`make_patch_for_region` splices the fixer output over the region's 1-based
inclusive line range of a single base read
(`new_all_lines[start-1:end] = new_block`) and emits the whole-file diff of
that splice; applying the patch rewrites the file to the spliced lines. -/

/-- `new_all_lines = all_lines.copy(); new_all_lines[start-1:end] = new_block`. -/
def spliceRegion (all_lines : List Chars) (start_line end_line : Nat)
    (new_block : List Chars) : List Chars :=
  all_lines.take (start_line - 1) ++ new_block ++ all_lines.drop end_line

/-! ### Region locator (`latex_scan_regions.py`)

Diagnostic text is passed already split into lines (`log_text.splitlines()`);
the on-disk tree is a map from relative path to the file's lines
(`read_text().splitlines()`), `none` when the file does not exist. -/

/-- `re.match(r"l\.(\d+)\s", s)`: a leading `l.`, one or more digits, then a
whitespace character; yields the line number. -/
def lMatch (s : Chars) : Option Nat :=
  match s with
  | 'l' :: '.' :: rest =>
    let ds := rest.takeWhile Char.isDigit
    if ds.isEmpty then none
    else
      match rest.drop ds.length with
      | c :: _ =>
        if isPySpace c then
          some (ds.foldl (fun a c => 10 * a + (c.toNat - '0'.toNat)) 0)
        else none
      | [] => none
  | _ => none

/-- `ERROR_RE.search(line)`: the four fixed message patterns (all literal). -/
def errorSearch (l : Chars) : Bool :=
  containsSub "Missing $ inserted.".data l ||
  containsSub "Bad math environment delimiter.".data l ||
  containsSub "\\begin{aligned} allowed only in math mode.".data l ||
  containsSub "Undefined control sequence.".data l

/-- `line.startswith("!") and ERROR_RE.search(line)`. -/
def isErrorLine (l : Chars) : Bool := "!".data.isPrefixOf l && errorSearch l

/-- The forward scan `for j in range(i + 1, min(i + 6, len(lines)))` for the
first `l.<num>` line; yields `(j, line_no)`. -/
def findLNum (lines : List Chars) (i : Nat) : Option (Nat × Nat) :=
  ((List.range' (i + 1) 5).filterMap fun j =>
    match lines.get? j with
    | some lj => (lMatch lj).map fun n => (j, n)
    | none => none).head?

/-- One entry of `parse_errors`' result: the reported source line number and
the `"\n".join(lines[context_start:j+1])` context chunk. -/
structure RawErr where
  line : Nat
  context_chunk : Chars
  deriving DecidableEq, Repr

/-- The context chunk for an error at log line `i` whose `l.<num>` line is
log line `j`: lines `max(0, i - 20) .. j` joined with newlines. -/
def chunkOf (lines : List Chars) (i j : Nat) : Chars :=
  List.intercalate ['\n'] ((lines.drop (i - 20)).take (j + 1 - (i - 20)))

/-- `parse_errors`: every line starting with `!` and matching an error
pattern, paired with the first `l.<num>` line in the next five lines;
errors with no such line are dropped. -/
def parse_errors (lines : List Chars) : List RawErr :=
  (List.range lines.length).filterMap fun i =>
    match lines.get? i with
    | some li =>
      if isErrorLine li then
        (findLNum lines i).map fun jn => ⟨jn.2, chunkOf lines i jn.1⟩
      else none
    | none => none

/-- Largest `k ≥ 1` such that `".tex"` starts at offset `k` of `p`: the
end position the greedy `[^)]+\.tex` backtracks to. -/
def lastTexEnd (p : Chars) : Option Nat :=
  (((List.range (p.length + 1)).filter fun k =>
    decide (1 ≤ k) && ".tex".data.isPrefixOf (p.drop k)).getLast?)

/-- Match `\./(?:themes|exams)/[^)]+\.tex` at the start of the text following
a `(`; yields the captured group and the number of characters consumed. -/
def markerAfterParen (rest : Chars) : Option (Chars × Nat) :=
  let pre :=
    if "./themes/".data.isPrefixOf rest then some "./themes/".data
    else if "./exams/".data.isPrefixOf rest then some "./exams/".data
    else none
  match pre with
  | none => none
  | some pr =>
    let v := rest.drop pr.length
    let p := v.takeWhile fun c => c ≠ ')'
    match lastTexEnd p with
    | none => none
    | some k => some (pr ++ p.take k ++ ".tex".data, pr.length + k + 4)

/-- Scanner for `findMarkers`, structurally recursive on a character budget
(each step consumes at least one character, so a budget of `s.length`
completes the scan). -/
def findMarkersAux : Nat → Chars → List Chars
  | 0, _ => []
  | _ + 1, [] => []
  | fuel + 1, c :: rest =>
    if c = '(' then
      match markerAfterParen rest with
      | some gn => gn.1 :: findMarkersAux fuel (rest.drop gn.2)
      | none => findMarkersAux fuel rest
    else findMarkersAux fuel rest

/-- `re.findall(r"\((\./(?:themes|exams)/[^)]+\.tex)", chunk)`: all captured
groups, scanning left to right, continuing after each match. -/
def findMarkers (s : Chars) : List Chars := findMarkersAux s.length s

/-- `guess_file`: the last file-open marker found in the context chunk with
its `./` stripped, defaulting to `main.tex`. -/
def guess_file (context_chunk : Chars) : Chars :=
  match (findMarkers context_chunk).getLast? with
  | some m => m.drop 2
  | none => "main.tex".data

/-- A problem region as serialized to `latex_problem_regions.jsonl`. -/
structure Region where
  file : Chars
  error_line : Nat
  start_line : Nat
  end_line : Nat
  snippet_raw : List Chars
  snippet_numbered : Chars
  deriving DecidableEq, Repr

/-- `f"{i:5d}"`: decimal digits right-aligned to width 5. -/
def padNum (n : Nat) : Chars :=
  List.replicate (5 - (Nat.repr n).data.length) ' ' ++ (Nat.repr n).data

/-- The numbered snippet: each line of the raw slice prefixed with its
1-based number (width 5, two-space separator), joined with newlines. -/
def numberSnippet (start_line : Nat) (ls : List Chars) : Chars :=
  List.intercalate ['\n']
    ((List.enumFrom start_line ls).map fun il => padNum il.1 ++ ' ' :: ' ' :: il.2)

/-- One step of `collect_regions`' loop over `base_errors`: resolve the
file, deduplicate by `(file, line)`, skip missing files, and build the
region with its symmetric context window clipped to the file. -/
def crStep (fs : Chars → Option (List Chars)) (radius : Nat)
    (acc : List (Chars × Nat) × List Region) (err : RawErr) :
    List (Chars × Nat) × List Region :=
  let file_rel := guess_file err.context_chunk
  let key := (file_rel, err.line)
  if key ∈ acc.1 then acc
  else
    match fs file_rel with
    | none => (key :: acc.1, acc.2)
    | some fileLines =>
      let center := err.line
      let start := max 1 (center - radius)
      let stop := min fileLines.length (center + radius)
      let raw := (fileLines.drop (start - 1)).take (stop - (start - 1))
      (key :: acc.1,
        acc.2 ++ [⟨file_rel, center, start, stop, raw, numberSnippet start raw⟩])

/-- `collect_regions(log_text, radius)` over the modelled file system. -/
def collect_regions (fs : Chars → Option (List Chars)) (logLines : List Chars)
    (radius : Nat := 10) : List Region :=
  ((parse_errors logLines).foldl (crStep fs radius) ([], [])).2

/-! ### Concrete instances used by witnesses and counterexamples -/

def cXid : Chars := "example::complex-analysis::residue-calculus::0".data

/-- A response body with a single `output_text` item carrying `t`. -/
def mkBody (t : Chars) : Body :=
  ⟨some "completed".data, none, [⟨[⟨"output_text".data, .str t⟩]⟩]⟩

/-- A result record for `cXid` with status code 200 and output text `t`. -/
def mkRec (t : Chars) : ResultRecord :=
  ⟨some cXid, some ⟨some 200, some (mkBody t)⟩, none⟩

/-- A complete two-block answer: all four markers present. -/
def cGoodText : Chars :=
  "%%% INQUIRY START %%% q %%% INQUIRY END %%% %%% SOLUTION START %%% s %%% SOLUTION END %%%".data

/-- A record for `cXid` with an error payload and no response. -/
def cNoRespRec : ResultRecord := ⟨some cXid, none, some "server_error".data⟩

/-- A record for `cXid` whose response body has an empty output list, so the
extracted text segment is empty. -/
def cEmptyRec : ResultRecord := ⟨some cXid, some ⟨some 200, some emptyBody⟩, none⟩

/-- A parse state in which `cXid` already accumulated the text `abc`. -/
def cPrevState : ParseState :=
  ⟨fun k => if k = cXid then some "abc".data else none, fun _ => none, []⟩

/-- A parse state in which `cXid` is already completed, its combined text
holding all four markers. -/
def cDoneState : ParseState :=
  ⟨fun k => if k = cXid then some cGoodText else none,
   fun k => if k = cXid then some ⟨true, none, some 200⟩ else none, []⟩

/-- Example metadata used in pipeline scenarios. -/
def cMeta : ExMeta :=
  ⟨"Complex Analysis".data, "Residue Calculus".data, 0,
   "Contour integral".data, "summary".data⟩

/-- A two-block answer whose solution markers are both present but enclose
only whitespace. -/
def cEmptySolText : Chars :=
  "%%% INQUIRY START %%% q %%% INQUIRY END %%% %%% SOLUTION START %%% %%% SOLUTION END %%%".data

def c2Specs : List (Chars × ExMeta) := [(cXid, cMeta)]

/-- Round oracle: round 1 yields the empty-solution record. -/
def c2Outcomes : Nat → RoundOutcome := fun _ => .results [mkRec cEmptySolText]

/-- Round oracle: round 1 yields the complete record. -/
def c2wOutcomes : Nat → RoundOutcome := fun _ => .results [mkRec cGoodText]

def aXid : Chars := "example::ode::green-function::0".data
def bXid : Chars := "example::ode::green-function::1".data

/-- A result record for an arbitrary id with output text `t`. -/
def mkRecFor (id t : Chars) : ResultRecord :=
  ⟨some id, some ⟨some 200, some (mkBody t)⟩, none⟩

def aMeta : ExMeta :=
  ⟨"Ordinary Differential Equations".data, "Linear Dynamics via the Green Function".data,
   0, "Driven oscillator".data, "a".data⟩

def bMeta : ExMeta :=
  ⟨"Ordinary Differential Equations".data, "Linear Dynamics via the Green Function".data,
   1, "Heat kernel".data, "b".data⟩

def c3Specs : List (Chars × ExMeta) := [(aXid, aMeta), (bXid, bMeta)]

/-- Round 1 results: the first example completes, the second stays
incomplete (no markers in its text). -/
def c3Round1 : List ResultRecord :=
  [mkRecFor aXid cGoodText, mkRecFor bXid "partial only".data]

/-- Round oracle: results in round 1, a fatal job status in round 2. -/
def c3Outcomes : Nat → RoundOutcome :=
  fun n => if n = 1 then .results c3Round1 else .fatal

/-- A five-line file for the patcher scenario. -/
def cAllLines : List Chars :=
  ["line 1".data, "bad 2".data, "bad 3".data, "line 4".data, "line 5".data]

/-- A three-line fixer output replacing a two-line region. -/
def cNewBlock : List Chars := ["good 2".data, "good 2b".data, "good 3".data]

/-- The formulas `collect_regions` uses for every region it emits, phrased
against the modelled file system. -/
def RegionSpec (fs : Chars → Option (List Chars)) (radius : Nat) (r : Region) : Prop :=
  (fs r.file).isSome = true ∧
  r.start_line = max 1 (r.error_line - radius) ∧
  r.end_line = min ((fs r.file).getD []).length (r.error_line + radius) ∧
  r.snippet_raw =
    (((fs r.file).getD []).drop (r.start_line - 1)).take (r.end_line - (r.start_line - 1))

/-- The window of the 20 diagnostic-text lines preceding log line `i`,
joined with newlines (the window the spec's file-resolution sentence
names, which excludes the error line itself and everything after it). -/
def precedingWindow (lines : List Chars) (i : Nat) : Chars :=
  List.intercalate ['\n'] ((lines.drop (i - 20)).take (i - (i - 20)))

/-! Scenario: a single `Missing $ inserted` error at source line 20 of
`themes/pde.tex`, context 3 (spec §8's third property). -/

def c6Bad : Chars := "This is bad math: \\alpha + 1]".data

def c6File : List Chars :=
  (List.range 30).map fun i =>
    if i = 19 then c6Bad else ("% line ".data ++ (Nat.repr (i + 1)).data)

def c6Fs : Chars → Option (List Chars) := fun p =>
  if p = "themes/pde.tex".data then some c6File else none

def c6Log : List Chars :=
  ["(./themes/pde.tex".data,
   "! Missing $ inserted.".data,
   "<inserted text> ".data,
   "            $".data,
   "l.20 This is bad math: \\alpha + 1]".data,
   ") (./themes/ode.tex".data]

/-! Scenario: a log whose `l.<N>` locator reports line 0, which the scanner
accepts although no file has a line 0. -/

def c5Fs : Chars → Option (List Chars) := fun p =>
  if p = "main.tex".data then some ["a".data] else none

def c5Log : List Chars :=
  ["! Undefined control sequence.".data, "l.0 x".data]

/-! Scenario: a well-formed one-line `main.tex` with an error at line 1. -/

def c5wFs : Chars → Option (List Chars) := fun p =>
  if p = "main.tex".data then some ["x".data] else none

def c5wLog : List Chars :=
  ["! Undefined control sequence.".data, "l.1 x".data]

/-- The region the scanner produces in the `c5wLog` scenario. -/
def cR5w : Region := ⟨"main.tex".data, 1, 1, 1, ["x".data], "    1  x".data⟩

/-! Scenario: a file-open marker `themes/a.tex` precedes the error, while
the text echoed on the `l.5` locator line itself contains a marker for
`themes/b.tex`. -/

def c7Fs : Chars → Option (List Chars) := fun p =>
  if p = "main.tex".data then some ["m".data]
  else if p = "themes/a.tex".data then
    some ["a1".data, "a2".data, "a3".data, "a4".data, "a5".data, "a6".data]
  else if p = "themes/b.tex".data then
    some ["b1".data, "b2".data, "b3".data, "b4".data, "b5".data, "b6".data]
  else none

def c7Log : List Chars :=
  ["(./themes/a.tex)".data,
   "! Undefined control sequence.".data,
   "l.5 x (./themes/b.tex)".data]

/-! Scenario: two errors in two different files, each preceded by its own
file-open marker (spec §8's fourth property). -/

def c7tFile (bad : Chars) : List Chars :=
  (List.range 11).map fun k => if k = 5 then bad else "% c".data

def c7tFs : Chars → Option (List Chars) := fun p =>
  if p = "themes/pde.tex".data then some (c7tFile "pde bad line".data)
  else if p = "themes/complex_analysis.tex".data then
    some (c7tFile "ca bad line".data)
  else none

def c7tLog : List Chars :=
  ["(./themes/pde.tex".data,
   "! Missing $ inserted.".data,
   "<inserted text> ".data,
   "            $".data,
   "l.6 pde bad line".data,
   ") (./themes/complex_analysis.tex".data,
   "! Package amsmath: \\begin{aligned} allowed only in math mode.".data,
   "l.6 ca bad line".data,
   ")".data]

/-! Scenario: an error with no file-open marker anywhere in the log (spec
§8's fifth property). -/

def c7mFs : Chars → Option (List Chars) := fun p =>
  if p = "main.tex".data then
    some ["% h1".data, "% h2".data, "% h3".data, "main bad line".data,
      "% f1".data, "% f2".data, "% f3".data]
  else none

def c7mLog : List Chars :=
  ["! Bad math environment delimiter.".data, "l.4 main bad line".data]

/-! ## Helper lemmas -/

/-- Strings already in stripped form: fixed by both one-sided strips. -/
def StripFixed (l : Chars) : Prop := stripLeft l = l ∧ stripRight l = l

instance (l : Chars) : Decidable (StripFixed l) :=
  inferInstanceAs (Decidable (_ ∧ _))

theorem stripRight_eq_rdropWhile (l : Chars) :
    stripRight l = l.rdropWhile isPySpace := rfl

theorem stripRight_append (a b : Chars) :
    stripRight (a ++ b) =
      if stripRight b = [] then stripRight a else a ++ stripRight b := by
  unfold stripRight
  rw [List.reverse_append, List.dropWhile_append]
  by_cases h : (b.reverse.dropWhile isPySpace).isEmpty
  · rw [if_pos h, if_pos]
    rw [List.isEmpty_iff] at h
    simp [h]
  · rw [if_neg h, if_neg]
    · simp
    · rw [List.isEmpty_iff] at h
      simp [h]

theorem stripLeft_fix_head {c : Char} {t : Chars}
    (h : stripLeft (c :: t) = c :: t) : isPySpace c = false := by
  by_cases hc : isPySpace c
  · exfalso
    have h2 : List.dropWhile isPySpace t = c :: t := by
      rw [← List.dropWhile_cons_of_pos hc]
      exact h
    have h3 := (List.dropWhile_sublist (l := t) isPySpace).length_le
    rw [h2] at h3
    simp only [List.length_cons] at h3
    omega
  · simpa using hc

theorem stripLeft_append_of_fix {a : Chars} (b : Chars)
    (ha : stripLeft a = a) (hne : a ≠ []) : stripLeft (a ++ b) = a ++ b := by
  match a, hne with
  | c :: t, _ =>
    have hc := stripLeft_fix_head ha
    simp only [List.cons_append]
    unfold stripLeft
    rw [List.dropWhile_cons_of_neg (by simp [hc])]

theorem stripLeft_stripRight {y : Chars} (h : stripLeft y = y) :
    stripLeft (stripRight y) = stripRight y := by
  rcases e : stripRight y with _ | ⟨c, t⟩
  · rfl
  · have hpre : stripRight y <+: y := by
      rw [stripRight_eq_rdropWhile]
      exact List.rdropWhile_prefix _ _
    rw [e] at hpre
    obtain ⟨u, hu⟩ := hpre
    rw [← hu] at h
    have hc := stripLeft_fix_head (t := t ++ u) (by simpa using h)
    unfold stripLeft
    rw [List.dropWhile_cons_of_neg (by simp [hc])]

theorem stripFixed_pyStrip (x : Chars) : StripFixed (pyStrip x) := by
  constructor
  · exact stripLeft_stripRight (by
      unfold stripLeft
      exact List.dropWhile_idempotent _ _)
  · unfold pyStrip
    rw [stripRight_eq_rdropWhile, stripRight_eq_rdropWhile]
    exact List.rdropWhile_idempotent _ _

theorem pyStrip_of_stripFixed {l : Chars} (h : StripFixed l) : pyStrip l = l := by
  unfold pyStrip
  rw [h.1, h.2]

/-- The single-equation description of the combined-text update. -/
theorem combineSeg_spec (prev seg : Chars) (hp : StripFixed prev)
    (hs : StripFixed seg) :
    combineSeg prev seg =
      if seg = [] then prev
      else if prev = [] then seg else prev ++ '\n' :: seg := by
  unfold combineSeg
  by_cases hprev : prev = []
  · simp only [hprev, ne_eq, not_true_eq_false, if_false, reduceIte]
    rw [pyStrip_of_stripFixed hs]
    by_cases hseg : seg = [] <;> simp [hseg]
  · rw [if_pos hprev]
    unfold pyStrip
    rw [stripLeft_append_of_fix _ hp.1 hprev]
    rw [show prev ++ '\n' :: seg = prev ++ (['\n'] ++ seg) by simp]
    rw [stripRight_append prev (['\n'] ++ seg), stripRight_append ['\n'] seg]
    by_cases hseg : seg = []
    · subst hseg
      have e1 : stripRight ['\n'] = [] := by decide
      simp [e1, hp.2, show stripRight ([] : Chars) = [] from rfl]
    · rw [hs.2, if_neg hseg]
      rw [if_neg (by simp), if_neg hseg, if_neg hprev]

theorem prefix_combineSeg (prev seg : Chars) (hp : StripFixed prev)
    (hs : StripFixed seg) : prev <+: combineSeg prev seg := by
  rw [combineSeg_spec prev seg hp hs]
  by_cases hseg : seg = []
  · simp [hseg]
  · by_cases hprev : prev = []
    · simp [hseg, hprev]
    · simp only [hseg, hprev, if_false]
      exact List.prefix_append _ _

theorem stripFixed_combineSeg (prev seg : Chars) :
    StripFixed (combineSeg prev seg) := by
  unfold combineSeg
  by_cases hprev : prev = [] <;> simp [hprev, stripFixed_pyStrip]

/-- `containsSub` as an existence of an occurrence offset. -/
theorem containsSub_iff (pat s : Chars) :
    containsSub pat s = true ↔ ∃ i, pat.isPrefixOf (s.drop i) = true := by
  induction s with
  | nil =>
    unfold containsSub findSub
    by_cases h : pat.isPrefixOf ([] : Chars) <;> simp [h]
  | cons c rest ih =>
    unfold containsSub findSub
    by_cases h : pat.isPrefixOf (c :: rest)
    · simp only [h, if_true, Option.isSome_some, true_iff]
      exact ⟨0, by simpa using h⟩
    · rw [if_neg h, Option.isSome_map']
      unfold containsSub at ih
      rw [ih]
      constructor
      · rintro ⟨i, hi⟩
        exact ⟨i + 1, by simpa using hi⟩
      · rintro ⟨i, hi⟩
        match i with
        | 0 => exact absurd (by simpa using hi) h
        | i + 1 => exact ⟨i, by simpa using hi⟩

/-- substring occurrence survives extension on the right. -/
theorem containsSub_mono {pat s t : Chars} (h : containsSub pat s = true)
    (hst : s <+: t) : containsSub pat t = true := by
  rw [containsSub_iff] at h ⊢
  obtain ⟨i, hi⟩ := h
  obtain ⟨u, hu⟩ := hst
  refine ⟨i, ?_⟩
  rw [← hu, List.drop_append_eq_append_drop]
  rw [ List.isPrefixOf_iff_prefix] at hi ⊢
  exact hi.trans (List.prefix_append _ _)

theorem hasAllMarkers_mono {s t : Chars} (h : hasAllMarkers s = true)
    (hst : s <+: t) : hasAllMarkers t = true := by
  unfold hasAllMarkers at h ⊢
  simp only [Bool.and_eq_true] at h ⊢
  exact ⟨⟨⟨containsSub_mono h.1.1.1 hst, containsSub_mono h.1.1.2 hst⟩,
    containsSub_mono h.1.2 hst⟩, containsSub_mono h.2 hst⟩

/-- Unfolding of the per-record step on a record carrying a response. -/
theorem processRecord_some (st : ParseState) (cid : Chars) (resp : ResponseEnv)
    (err : Option Chars) (hne : cid ≠ []) :
    processRecord st ⟨some cid, some resp, err⟩ =
      (let seg := extract_output_text_from_response_obj (resp.body.getD emptyBody)
       let c := combineSeg ((st.combined cid).getD []) seg
       if hasAllMarkers c then
        { combined := upd st.combined cid c
          states := upd st.states cid ⟨true, none, some (resp.status_code.getD 0)⟩
          incomplete := st.incomplete }
       else
        { combined := upd st.combined cid c
          states := upd st.states cid
            ⟨false, some (detailsOr (resp.body.getD emptyBody).incomplete_details),
              some (resp.status_code.getD 0)⟩
          incomplete := st.incomplete ++ [cid] }) := by
  unfold processRecord
  dsimp only
  rw [if_neg hne]

/-- Unfolding of the per-record step on a record with no response payload. -/
theorem processRecord_noResp (st : ParseState) (cid : Chars)
    (err : Option Chars) (hne : cid ≠ []) :
    processRecord st ⟨some cid, none, err⟩ =
      { combined := st.combined
        states := upd st.states cid
          ⟨false, some (IncompleteReason.noResponse err), none⟩
        incomplete := st.incomplete ++ [cid] } := by
  unfold processRecord
  dsimp only
  rw [if_neg hne]

/-- C1.  For a record with a truthy `custom_id`: with a response payload the
extracted text is appended to the example's combined text and the example is
marked `completed = true` with `incomplete_reason = None` exactly when the
accumulated combined text contains all four markers, otherwise it is marked
incomplete with the body's `incomplete_details` (or `markers_missing`) and
its id joins the returned incomplete list; with no response payload the
state becomes `completed = false`, `status_code = None`,
`incomplete_reason.reason = "no_response"`, the combined-text map is
untouched, and the id joins the incomplete list. -/
theorem claim1_record_state (st : ParseState) (r : ResultRecord) (cid : Chars)
    (hcid : r.custom_id = some cid) (hne : cid ≠ []) :
    (∀ resp, r.response = some resp →
      (processRecord st r).combined cid =
          some (combineSeg ((st.combined cid).getD [])
            (extract_output_text_from_response_obj (resp.body.getD emptyBody))) ∧
        ((processRecord st r).states cid =
            some ⟨true, none, some (resp.status_code.getD 0)⟩ ↔
          hasAllMarkers (combineSeg ((st.combined cid).getD [])
            (extract_output_text_from_response_obj (resp.body.getD emptyBody))) = true) ∧
        (hasAllMarkers (combineSeg ((st.combined cid).getD [])
            (extract_output_text_from_response_obj (resp.body.getD emptyBody))) = false →
          (processRecord st r).states cid =
              some ⟨false,
                some (detailsOr (resp.body.getD emptyBody).incomplete_details),
                some (resp.status_code.getD 0)⟩ ∧
            (processRecord st r).incomplete = st.incomplete ++ [cid])) ∧
    (r.response = none →
      (processRecord st r).states cid =
          some ⟨false, some (IncompleteReason.noResponse r.error), none⟩ ∧
        reasonField (IncompleteReason.noResponse r.error) = "no_response".data ∧
        (processRecord st r).combined = st.combined ∧
        (processRecord st r).incomplete = st.incomplete ++ [cid]) := by
  obtain ⟨rcid, rresp, rerr⟩ := r
  simp only at hcid
  subst hcid
  constructor
  · intro resp hresp
    simp only at hresp
    subst hresp
    rw [processRecord_some st cid resp rerr hne]
    simp only
    by_cases h : hasAllMarkers (combineSeg ((st.combined cid).getD [])
        (extract_output_text_from_response_obj (resp.body.getD emptyBody))) = true
    · rw [if_pos h]
      refine ⟨by simp [upd], ?_, ?_⟩
      · simp [upd, h]
      · intro hfalse
        rw [h] at hfalse
        exact absurd hfalse (by simp)
    · rw [if_neg h]
      refine ⟨by simp [upd], ?_, fun _ => ⟨by simp [upd], rfl⟩⟩
      simp only [upd, if_pos rfl]
      constructor
      · intro he
        exact absurd (congrArg (fun s => (s.getD ⟨false, none, none⟩).completed) he)
          (by simp)
      · intro ht
        exact absurd ht h
  · intro hresp
    simp only at hresp
    subst hresp
    rw [processRecord_noResp st cid rerr hne]
    exact ⟨by simp [upd], rfl, rfl, rfl⟩

/-- C1 witness: a concrete complete record is marked completed with status
code 200, and a concrete no-response record is marked incomplete with
reason `no_response`. -/
theorem claim1_record_state_witness :
    (processRecord initPS (mkRec cGoodText)).states cXid =
        some ⟨true, none, some 200⟩ ∧
      (processRecord initPS cNoRespRec).states cXid =
        some ⟨false, some (IncompleteReason.noResponse (some "server_error".data)), none⟩ := by
  constructor
  · exact ((claim1_record_state initPS (mkRec cGoodText) cXid rfl
      (by decide)).1 ⟨some 200, some (mkBody cGoodText)⟩ rfl).2.1.mpr (by decide)
  · exact ((claim1_record_state initPS cNoRespRec cXid rfl (by decide)).2 rfl).1

/-- C10.  A parsed result line whose `custom_id` is missing or empty changes
nothing: no state entry, no combined-text append, no incomplete id. -/
theorem claim10_no_custom_id (st : ParseState) (r : ResultRecord)
    (h : r.custom_id = none ∨ r.custom_id = some []) :
    processRecord st r = st := by
  unfold processRecord
  rcases h with h | h <;> rw [h]
  simp

/-- C10 witness: a concrete record with a valid response but empty
`custom_id` leaves the parse state unchanged. -/
theorem claim10_no_custom_id_witness :
    processRecord initPS ⟨some [], some ⟨some 200, some (mkBody cGoodText)⟩, none⟩ =
      initPS :=
  claim10_no_custom_id initPS _ (Or.inr rfl)

/-- C8 counterexample: a record carrying a response whose extracted output
text is empty leaves the stored combined text `abc` unchanged — it is *not*
rewritten to `abc ++ "\n" ++ segment` as the claim's unconditional
append-with-separator formula requires. -/
theorem claim8_counterexample :
    cEmptyRec.response.isSome = true ∧
      cPrevState.combined cXid = some "abc".data ∧
      extract_output_text_from_response_obj emptyBody = [] ∧
      (processRecord cPrevState cEmptyRec).combined cXid = some "abc".data ∧
      (processRecord cPrevState cEmptyRec).combined cXid ≠
        some ("abc".data ++ '\n' :: extract_output_text_from_response_obj emptyBody) := by
  refine ⟨rfl, by decide, rfl, by decide, by decide⟩

/-- C8 amended.  Processing a record with a response payload for `cid`
updates the combined text to `combineSeg prev seg`; the previously stored
text `prev` (which the engine always stores in stripped form) remains a
prefix of it, the new segment is appended after a separating newline
whenever prior text existed *and the segment is non-empty*, an empty
segment leaves the combined text unchanged, and the result is again in
stripped form — so previously accumulated text is never truncated or
rewritten. -/
theorem claim8_monotone_amended (st : ParseState) (r : ResultRecord)
    (cid : Chars) (resp : ResponseEnv) (hcid : r.custom_id = some cid)
    (hne : cid ≠ []) (hresp : r.response = some resp)
    (hfix : StripFixed ((st.combined cid).getD [])) :
    (processRecord st r).combined cid =
        some (combineSeg ((st.combined cid).getD [])
          (extract_output_text_from_response_obj (resp.body.getD emptyBody))) ∧
      ((st.combined cid).getD []) <+:
        combineSeg ((st.combined cid).getD [])
          (extract_output_text_from_response_obj (resp.body.getD emptyBody)) ∧
      (extract_output_text_from_response_obj (resp.body.getD emptyBody) ≠ [] →
        (st.combined cid).getD [] ≠ [] →
        combineSeg ((st.combined cid).getD [])
            (extract_output_text_from_response_obj (resp.body.getD emptyBody)) =
          ((st.combined cid).getD []) ++ '\n' ::
            extract_output_text_from_response_obj (resp.body.getD emptyBody)) ∧
      (extract_output_text_from_response_obj (resp.body.getD emptyBody) = [] →
        combineSeg ((st.combined cid).getD [])
            (extract_output_text_from_response_obj (resp.body.getD emptyBody)) =
          (st.combined cid).getD []) ∧
      StripFixed (combineSeg ((st.combined cid).getD [])
        (extract_output_text_from_response_obj (resp.body.getD emptyBody))) := by
  obtain ⟨rcid, rresp, rerr⟩ := r
  simp only at hcid hresp
  subst hcid
  subst hresp
  have hs : StripFixed (extract_output_text_from_response_obj (resp.body.getD emptyBody)) :=
    stripFixed_pyStrip _
  have hspec := combineSeg_spec ((st.combined cid).getD [])
    (extract_output_text_from_response_obj (resp.body.getD emptyBody)) hfix hs
  refine ⟨?_, prefix_combineSeg _ _ hfix hs, ?_, ?_, stripFixed_combineSeg _ _⟩
  · rw [processRecord_some st cid resp rerr hne]
    by_cases h : hasAllMarkers (combineSeg ((st.combined cid).getD [])
        (extract_output_text_from_response_obj (resp.body.getD emptyBody))) = true
    · simp only [h, if_true]
      simp [upd]
    · simp only [h, if_false]
      simp [upd]
  · intro hseg hprev
    rw [hspec, if_neg hseg, if_neg hprev]
  · intro hseg
    rw [hspec, if_pos hseg]

/-- C8 witness: with stored text `abc` and an incoming segment `xyz`, the
combined text becomes exactly `abc`, a newline, then `xyz`. -/
theorem claim8_monotone_amended_witness :
    (processRecord cPrevState (mkRec "xyz".data)).combined cXid =
      some ("abc".data ++ '\n' :: "xyz".data) := by
  have h := claim8_monotone_amended cPrevState (mkRec "xyz".data) cXid
    ⟨some 200, some (mkBody "xyz".data)⟩ rfl (by decide) rfl (by decide)
  rw [h.1, h.2.2.1 (by decide) (by decide)]
  decide

/-- C9 counterexample: after a record completes `cXid` (all four markers
present), a later no-response record for the same id in the same results
file resets its state to `completed = false` — completion is not terminal. -/
theorem claim9_counterexample :
    (parse_round_results [mkRec cGoodText]
        (fun _ => none) (fun _ => none)).states cXid =
        some ⟨true, none, some 200⟩ ∧
      (parse_round_results [mkRec cGoodText, cNoRespRec]
        (fun _ => none) (fun _ => none)).states cXid =
        some ⟨false, some (IncompleteReason.noResponse (some "server_error".data)),
          none⟩ := by
  exact ⟨by decide, by decide⟩

/-- C9 amended.  Once an example is completed its combined text contains all
four markers, and any later record that carries a response payload keeps it
completed (the markers persist in the grown combined text); only a record
with no response payload can reset it to incomplete. -/
theorem claim9_terminal_amended (st : ParseState) (r : ResultRecord)
    (cid : Chars) (resp : ResponseEnv) (prev : Chars)
    (hcid : r.custom_id = some cid) (hne : cid ≠ [])
    (hresp : r.response = some resp) (hprev : st.combined cid = some prev)
    (hfix : StripFixed prev) (hmk : hasAllMarkers prev = true) :
    (processRecord st r).states cid =
      some ⟨true, none, some (resp.status_code.getD 0)⟩ := by
  obtain ⟨rcid, rresp, rerr⟩ := r
  simp only at hcid hresp
  subst hcid
  subst hresp
  rw [processRecord_some st cid resp rerr hne]
  have hgetd : (st.combined cid).getD [] = prev := by rw [hprev]; rfl
  have hs : StripFixed (extract_output_text_from_response_obj (resp.body.getD emptyBody)) :=
    stripFixed_pyStrip _
  have hpre : prev <+: combineSeg ((st.combined cid).getD [])
      (extract_output_text_from_response_obj (resp.body.getD emptyBody)) := by
    rw [hgetd]
    exact prefix_combineSeg _ _ (hgetd ▸ hfix) hs
  have hall := hasAllMarkers_mono hmk hpre
  simp only [hall, if_true]
  simp [upd]

/-- C9 witness: a completed example stays completed when a later record with
more response text arrives. -/
theorem claim9_terminal_amended_witness :
    (processRecord cDoneState (mkRec "more text".data)).states cXid =
      some ⟨true, none, some 200⟩ :=
  claim9_terminal_amended cDoneState (mkRec "more text".data) cXid
    ⟨some 200, some (mkBody "more text".data)⟩ cGoodText rfl (by decide) rfl
    (by decide) (by decide) (by decide)

/-- C2 counterexample: both solution markers occur in the final combined
text, yet the returned solution *is* the entire combined text (the marker
interior strips to the empty string, so the fallback fires) — refuting
"falling back ... exactly when no solution markers are present at all". -/
theorem claim2_counterexample :
    containsSub mSolStart cEmptySolText = true ∧
      containsSub mSolEnd cEmptySolText = true ∧
      run_example_batch c2Specs c2Outcomes 3 =
        [(("Complex Analysis".data, "Residue Calculus".data, 0),
          ⟨"Contour integral".data, "q".data, cEmptySolText⟩)] := by
  refine ⟨by decide, by decide, by decide⟩

/-- C2 amended.  For every example whose combined text is non-empty after
the final round, `run_example_batch` returns an output whose inquiry is
`extract_block` between the inquiry markers (empty when absent) and whose
solution is the extracted solution block, falling back to the entire
combined text exactly when the extracted solution block is empty — i.e.
when the solution markers are absent (in order) or the text between them
strips to the empty string. -/
theorem claim2_extraction_amended (specs : List (Chars × ExMeta))
    (outcomes : Nat → RoundOutcome) (max_rounds : Nat) (cid : Chars)
    (meta : ExMeta) (hmem : (cid, meta) ∈ specs)
    (hrun : (loopResult specs outcomes max_rounds).isSome = true)
    (hcomb : finalCombined specs outcomes max_rounds cid ≠ []) :
    ((meta.chapter_title, meta.section_title, meta.ex_index),
      (⟨meta.ex_title,
        extract_block (finalCombined specs outcomes max_rounds cid) mInqStart mInqEnd,
        if extract_block (finalCombined specs outcomes max_rounds cid) mSolStart mSolEnd = []
        then finalCombined specs outcomes max_rounds cid
        else extract_block (finalCombined specs outcomes max_rounds cid) mSolStart mSolEnd⟩ :
        ExampleOutput)) ∈
      run_example_batch specs outcomes max_rounds := by
  rcases e : loopResult specs outcomes max_rounds with _ | rs
  · rw [e] at hrun
    simp at hrun
  · have hfc : finalCombined specs outcomes max_rounds cid =
        pyStrip ((rs.2.combined cid).getD []) := by
      unfold finalCombined
      rw [e]
    have hne : specs.isEmpty = false := by
      rcases specs with _ | _
      · simp at hmem
      · rfl
    unfold run_example_batch
    rw [hne, e]
    simp only [Bool.false_eq_true, if_false]
    unfold finalize
    rw [List.mem_filterMap]
    refine ⟨(cid, meta), hmem, ?_⟩
    simp only
    rw [← hfc, if_neg hcomb]

/-- C2 witness: a clean run returns the extracted inquiry `q` and solution
`s` for the completed example. -/
theorem claim2_extraction_amended_witness :
    (("Complex Analysis".data, "Residue Calculus".data, 0),
      (⟨"Contour integral".data, "q".data, "s".data⟩ : ExampleOutput)) ∈
      run_example_batch c2Specs c2wOutcomes 3 := by
  have h := claim2_extraction_amended c2Specs c2wOutcomes 3 cXid cMeta
    (by decide) (by decide) (by decide)
  exact h

/-- C3 counterexample: the first example completes in round 1, the batch job
becomes fatal in round 2, and `run_example_batch` returns the empty output
map — the round-1 completed example is *not* usable, refuting "only that
round's work is lost". -/
theorem claim3_counterexample :
    (parse_round_results c3Round1 (fun _ => none) (fun _ => none)).states aXid =
        some ⟨true, none, some 200⟩ ∧
      c3Outcomes 2 = RoundOutcome.fatal ∧
      run_example_batch c3Specs c3Outcomes 3 = [] := by
  refine ⟨by decide, rfl, by decide⟩

/-- C3 amended.  A fatal batch-job status (`failed`/`cancelled`/`expired`)
in any round makes the whole run return the empty output map: the loop
yields no state, and a round entered with pending examples whose job is
fatal aborts the loop — earlier rounds' completed examples are discarded
too. -/
theorem claim3_fatal_amended (specs : List (Chars × ExMeta))
    (outcomes : Nat → RoundOutcome) (max_rounds : Nat) :
    ((loopResult specs outcomes max_rounds).isNone = true →
      run_example_batch specs outcomes max_rounds = []) ∧
    (∀ round_idx fuel remaining st, remaining.isEmpty = false →
      outcomes round_idx = RoundOutcome.fatal →
      (runRounds outcomes round_idx (fuel + 1) remaining st).isNone = true) := by
  constructor
  · intro h
    unfold run_example_batch
    rcases e : loopResult specs outcomes max_rounds with _ | rs
    · by_cases hs : specs.isEmpty = true <;> simp [hs]
    · rw [e] at h
      simp at h
  · intro round_idx fuel remaining st hrem hfat
    unfold runRounds
    rw [hrem, hfat]
    rfl

/-- C3 witness: in the concrete two-example scenario the fatal round-2
status makes the loop abort and the run return the empty map. -/
theorem claim3_fatal_amended_witness :
    run_example_batch c3Specs c3Outcomes 3 = [] ∧
      (runRounds c3Outcomes 2 1 [bXid] initPS).isNone = true := by
  refine ⟨(claim3_fatal_amended c3Specs c3Outcomes 3).1 (by decide),
    (claim3_fatal_amended c3Specs c3Outcomes 3).2 2 0 [bXid] initPS (by decide) rfl⟩

/-- C4.  Splicing the fixer output over the 1-based inclusive range
`[start_line, end_line]` of a file's lines (one whole-file rewrite from a
single base read, `new_all_lines[start-1:end] = new_block`) leaves every
line before the region byte-identical at its old index, maps every line
after the region to the index shifted by exactly the block/region length
delta, and changes the total line count by exactly that delta — so no
lines are duplicated or dropped. -/
theorem claim4_splice_frame (all_lines : List Chars) (start_line end_line : Nat)
    (new_block : List Chars) (h1 : 1 ≤ start_line) (h2 : start_line ≤ end_line)
    (h3 : end_line ≤ all_lines.length) :
    (∀ i, i < start_line - 1 →
      (spliceRegion all_lines start_line end_line new_block)[i]? = all_lines[i]?) ∧
    (∀ j, (spliceRegion all_lines start_line end_line new_block)[start_line - 1 + new_block.length + j]? =
      all_lines[end_line + j]?) ∧
    (spliceRegion all_lines start_line end_line new_block).length +
        (end_line - start_line + 1) =
      all_lines.length + new_block.length := by
  unfold spliceRegion
  have hlen_take : (all_lines.take (start_line - 1)).length = start_line - 1 := by
    rw [List.length_take]
    omega
  have hl : (all_lines.take (start_line - 1) ++ new_block).length =
      start_line - 1 + new_block.length := by
    rw [List.length_append, hlen_take]
  refine ⟨?_, ?_, ?_⟩
  · intro i hi
    rw [List.getElem?_append_left (by rw [hl]; omega)]
    rw [List.getElem?_append_left (by rw [hlen_take]; omega)]
    rw [List.getElem?_take_of_lt hi]
  · intro j
    rw [List.getElem?_append_right (by rw [hl]; omega)]
    rw [hl, List.getElem?_drop]
    congr 1
    omega
  · rw [List.length_append, List.length_append, hlen_take, List.length_drop]
    omega

/-- C4 witness: replacing lines 2–3 of a five-line file with a three-line
block keeps line 1 and the tail lines, shifted by the delta `+1`. -/
theorem claim4_splice_frame_witness :
    (spliceRegion cAllLines 2 3 cNewBlock)[0]? = cAllLines[0]? ∧
      (spliceRegion cAllLines 2 3 cNewBlock)[4]? = cAllLines[3]? ∧
      (spliceRegion cAllLines 2 3 cNewBlock).length + 2 =
        cAllLines.length + cNewBlock.length := by
  have h := claim4_splice_frame cAllLines 2 3 cNewBlock (by decide) (by decide)
    (by decide)
  exact ⟨h.1 0 (by decide), h.2.1 0, h.2.2⟩

/-- One locator step only ever appends regions satisfying `RegionSpec`. -/
theorem crStep_preserves (fs : Chars → Option (List Chars)) (radius : Nat)
    (acc : List (Chars × Nat) × List Region) (err : RawErr)
    (h : ∀ r ∈ acc.2, RegionSpec fs radius r) :
    ∀ r ∈ (crStep fs radius acc err).2, RegionSpec fs radius r := by
  intro r hr
  unfold crStep at hr
  by_cases hseen : (guess_file err.context_chunk, err.line) ∈ acc.1
  · rw [if_pos hseen] at hr
    exact h r hr
  · rw [if_neg hseen] at hr
    rcases e : fs (guess_file err.context_chunk) with _ | fl
    · rw [e] at hr
      exact h r hr
    · rw [e] at hr
      simp only at hr
      rcases List.mem_append.mp hr with h1 | h2
      · exact h r h1
      · have hreq := List.mem_singleton.mp h2
        subst hreq
        unfold RegionSpec
        dsimp only
        rw [e]
        exact ⟨rfl, rfl, rfl, rfl⟩

theorem collect_regions_spec (fs : Chars → Option (List Chars))
    (logLines : List Chars) (radius : Nat) :
    ∀ r ∈ collect_regions fs logLines radius, RegionSpec fs radius r := by
  unfold collect_regions
  generalize parse_errors logLines = errs
  have main : ∀ (errs : List RawErr) (acc : List (Chars × Nat) × List Region),
      (∀ r ∈ acc.2, RegionSpec fs radius r) →
      ∀ r ∈ (errs.foldl (crStep fs radius) acc).2, RegionSpec fs radius r := by
    intro errs
    induction errs with
    | nil => intro acc h; simpa using h
    | cons e es ih =>
      intro acc h
      exact ih _ (crStep_preserves fs radius acc e h)
  exact main errs ([], []) (by simp)

/-- C5 counterexample: on a log whose locator line reads `l.0`, the scanner
emits a region with `error_line = 0` but `start_line = 1`, violating the
claimed invariant `start_line <= error_line` (the claim quantifies over any
diagnostic text). -/
theorem claim5_counterexample :
    (collect_regions c5Fs c5Log 10).map
        (fun r => (r.file, r.error_line, r.start_line, r.end_line)) =
      [("main.tex".data, 0, 1, 1)] ∧
    (collect_regions c5Fs c5Log 10).map
        (fun r => decide (r.start_line ≤ r.error_line)) = [false] := by
  exact ⟨by decide, by decide⟩

/-- C5 amended.  Every region's raw snippet is exactly the lines
`[start_line, end_line]` of the referenced file at scan time (1-indexed
inclusive, as a slice), and the invariant
`start_line <= error_line <= end_line` holds whenever the reported error
line actually exists in the file (`1 <= error_line <= line count`). -/
theorem claim5_invariant_amended (fs : Chars → Option (List Chars))
    (logLines : List Chars) (radius : Nat) (r : Region)
    (hr : r ∈ collect_regions fs logLines radius) :
    r.snippet_raw =
      (((fs r.file).getD []).drop (r.start_line - 1)).take
        (r.end_line - (r.start_line - 1)) ∧
    (1 ≤ r.error_line → r.error_line ≤ ((fs r.file).getD []).length →
      r.start_line ≤ r.error_line ∧ r.error_line ≤ r.end_line) := by
  obtain ⟨-, hs, he, hraw⟩ := collect_regions_spec fs logLines radius r hr
  refine ⟨hraw, fun h1 h2 => ⟨?_, ?_⟩⟩ <;> omega

/-- C5 witness: in a well-formed scenario the produced region satisfies the
invariant. -/
theorem claim5_invariant_amended_witness :
    cR5w.start_line ≤ cR5w.error_line ∧ cR5w.error_line ≤ cR5w.end_line := by
  exact (claim5_invariant_amended c5wFs c5wLog 10 cR5w (by decide)).2
    (by decide) (by decide)

/-- C6.  Every surviving region is built with
`start = max(1, error_line - context_lines)`,
`end = min(line_count, error_line + context_lines)` and captures that
inclusive range as the snippet; in particular, on a log with one recognized
error whose `l.<N>` line gives 20, with context 3 and a 30-line file, the
scanner yields exactly one region with `start_line = 17`, `end_line = 23`
and a 7-line snippet containing the offending line's text. -/
theorem claim6_window :
    (∀ (fs : Chars → Option (List Chars)) (logLines : List Chars)
      (radius : Nat) (r : Region), r ∈ collect_regions fs logLines radius →
      r.start_line = max 1 (r.error_line - radius) ∧
      r.end_line = min ((fs r.file).getD []).length (r.error_line + radius) ∧
      r.snippet_raw =
        (((fs r.file).getD []).drop (r.start_line - 1)).take
          (r.end_line - (r.start_line - 1))) ∧
    (collect_regions c6Fs c6Log 3).map
        (fun r => (r.file, r.error_line, r.start_line, r.end_line,
          r.snippet_raw.length)) =
      [("themes/pde.tex".data, 20, 17, 23, 7)] ∧
    (collect_regions c6Fs c6Log 3).map
        (fun r => decide (c6Bad ∈ r.snippet_raw)) = [true] := by
  refine ⟨fun fs logLines radius r hr => ?_, by decide, by decide⟩
  obtain ⟨-, hs, he, hraw⟩ := collect_regions_spec fs logLines radius r hr
  exact ⟨hs, he, hraw⟩

/-- C6 witness: the window formulas instantiated on a concrete region. -/
theorem claim6_window_witness :
    cR5w.start_line = max 1 (cR5w.error_line - 10) ∧
      cR5w.end_line =
        min ((c5wFs cR5w.file).getD []).length (cR5w.error_line + 10) ∧
      cR5w.snippet_raw =
        (((c5wFs cR5w.file).getD []).drop (cR5w.start_line - 1)).take
          (cR5w.end_line - (cR5w.start_line - 1)) :=
  claim6_window.1 c5wFs c5wLog 10 cR5w (by decide)

/-- C7 counterexample: a marker for `themes/a.tex` is the only file-open
marker preceding the error, yet the scanner resolves the region to
`themes/b.tex` because a marker echoed on the `l.5` locator line itself —
which does not precede the error — wins; so neither "last marker in the 20
preceding lines" nor the `main.tex` default describes the result. -/
theorem claim7_counterexample :
    parse_errors c7Log = [⟨5, chunkOf c7Log 1 2⟩] ∧
      (findMarkers (precedingWindow c7Log 1)).getLast? =
        some "./themes/a.tex".data ∧
      (collect_regions c7Fs c7Log 2).map (fun r => r.file) =
        ["themes/b.tex".data] ∧
      ("themes/b.tex".data : Chars) ≠ ("./themes/a.tex".data).drop 2 := by
  exact ⟨by decide, by decide, by decide, by decide⟩

set_option maxRecDepth 4000 in
/-- C7 amended.  Every detected error carries the context chunk consisting
of the 20 log lines preceding the error-message line *together with the
lines from the error message through the `l.<N>` locator line*, and the
file is resolved to the last file-open marker found in that chunk,
defaulting to `main.tex` when the chunk has none; two errors preceded by
different markers each resolve to their own file, and an error with no
marker anywhere resolves to `main.tex`. -/
theorem claim7_resolution_amended :
    (∀ (lines : List Chars) (i j n : Nat) (li : Chars),
      lines.get? i = some li → isErrorLine li = true →
      findLNum lines i = some (j, n) →
      (⟨n, chunkOf lines i j⟩ : RawErr) ∈ parse_errors lines) ∧
    (∀ chunk : Chars,
      (findMarkers chunk = [] → guess_file chunk = "main.tex".data) ∧
      (∀ ms m, findMarkers chunk = ms ++ [m] → guess_file chunk = m.drop 2)) ∧
    (collect_regions c7tFs c7tLog 2).map (fun r => r.file) =
      ["themes/pde.tex".data, "themes/complex_analysis.tex".data] ∧
    (collect_regions c7mFs c7mLog 1).map (fun r => r.file) =
      ["main.tex".data] := by
  refine ⟨?_, ?_, by decide, by decide⟩
  · intro lines i j n li hget herr hfind
    unfold parse_errors
    rw [List.mem_filterMap]
    refine ⟨i, ?_, ?_⟩
    · rw [List.mem_range]
      exact (List.get?_eq_some.mp hget).1
    · rw [hget]
      dsimp only
      rw [if_pos herr, hfind]
      rfl
  · intro chunk
    constructor
    · intro h
      unfold guess_file
      rw [h]
      rfl
    · intro ms m h
      unfold guess_file
      rw [h]
      simp [List.getLast?_append]

/-- C7 witness: the amended chunk/resolution description instantiated on
the marker-on-locator-line scenario. -/
theorem claim7_resolution_amended_witness :
    (⟨5, chunkOf c7Log 1 2⟩ : RawErr) ∈ parse_errors c7Log ∧
      guess_file (chunkOf c7Log 1 2) = ("./themes/b.tex".data).drop 2 := by
  refine ⟨claim7_resolution_amended.1 c7Log 1 2 5
      "! Undefined control sequence.".data rfl (by decide) (by decide), ?_⟩
  exact (claim7_resolution_amended.2.1 (chunkOf c7Log 1 2)).2
    ["./themes/a.tex".data] "./themes/b.tex".data (by decide)

end MethodsBook
